import Mathlib

set_option linter.unusedVariables false

/- Shallow embedding of src/utils/HDFTools.py (class NoiseTimeline and
   get_strain_from_hdf_file).  Python integers are modelled as Int (GPS
   times) or Nat (durations, bit indices, mask values); the per-second
   int32 mask arrays are List Nat (GWOSC masks are small non-negative
   bitfields; theorems that quantify over arbitrary mask contents carry
   an explicit bound below 2^31 so that Nat comparison and Nat bitwise
   operations agree with numpy int32 semantics on the quantified range).
   Python / numpy slice reads, numpy slice assignment (including the
   length-1 broadcast rule) and numpy elementwise broadcasting are
   modelled explicitly; operations that can raise return Except. -/

deriving instance DecidableEq for Except

/-- Detector codes accepted by the loader (`assert detector in ['H1','L1']`). -/
inductive Detector where
  | H1
  | L1
deriving DecidableEq, Repr

/-- Metadata and masks read from one HDF file by `NoiseTimeline._get_hdf_files`:
start time, detector, duration and the two per-second int32 mask arrays. -/
structure SegmentRecord where
  start_time : Int
  detector : Detector
  duration : Nat
  inj_mask : List Nat
  dq_mask : List Nat
deriving DecidableEq, Repr

/-- The four full-run arrays built by `NoiseTimeline._build_timeline`. -/
structure Timeline where
  h1_inj_mask : List Nat
  l1_inj_mask : List Nat
  h1_dq_mask : List Nat
  l1_dq_mask : List Nat
deriving DecidableEq, Repr

/-- State of a constructed `NoiseTimeline`: the sorted record list
(`self.hdf_files`) and the merged timeline (`self.timeline`). -/
structure NoiseTimeline where
  hdf_files : List SegmentRecord
  timeline : Timeline
deriving DecidableEq, Repr

/-- Errors raised by the Python code paths modelled here: failed `assert`,
numpy shape-mismatch on broadcasting, `ValueError` (zero slice step /
`np.random.randint` with empty range), and division by zero. -/
inductive PyError where
  | assertError
  | broadcastError
  | valueError
  | zeroDivisionError
deriving DecidableEq, Repr

/-- Normalisation of a Python slice bound `i` against length `n`: a negative
index counts from the end (clipped at 0), a non-negative one clips at `n`. -/
def pyNorm (n : Nat) (i : Int) : Nat :=
  if i < 0 then ((n : Int) + i).toNat else min i.toNat n

/-- Python slice read `xs[i:j]` (step 1). -/
def pySlice {α : Type} (xs : List α) (i j : Int) : List α :=
  (xs.take (pyNorm xs.length j)).drop (pyNorm xs.length i)

/-- The code's `min_dq = sum([2**i for i in dq_bits])` (line 404). -/
def min_dq (dq_bits : List Nat) : Nat := (dq_bits.map (fun k => 2 ^ k)).sum

/-- The code's data-quality test `np.all(environment > min_dq)`
(lines 407-414): every element strictly greater than the threshold. -/
def dqCheckPasses (xs : List Nat) (m : Nat) : Bool :=
  xs.all (fun x => decide (m < x))

/-- The code's `np.all(np.bitwise_and(xs, np.left_shift(ones(w2), i)))`
(lines 423-437).  numpy broadcasts shapes `(len xs,)` and `(w2,)`:
compatible iff the lengths agree or one of them is 1; otherwise the
elementwise operation raises a shape-mismatch error. -/
def npAllAndOnesShift (xs : List Nat) (w2 : Nat) (i : Nat) : Except PyError Bool :=
  if xs.length = w2 ∨ w2 = 1 then
    .ok (xs.all (fun x => (x &&& (1 <<< i)) != 0))
  else if xs.length = 1 then
    .ok (w2 == 0 || xs.all (fun x => (x &&& (1 <<< i)) != 0))
  else .error .broadcastError

/-- The injection-check loop of `is_valid` (lines 427-437): for each
requested bit, H1 then L1, fail on the first window not having the bit
everywhere. -/
def injLoop (h1s l1s : List Nat) (w2 : Nat) : List Nat → Except PyError Bool
  | [] => .ok true
  | i :: rest =>
    match npAllAndOnesShift h1s w2 i with
    | .error e => .error e
    | .ok b1 =>
      if !b1 then .ok false
      else
        match npAllAndOnesShift l1s w2 i with
        | .error e => .error e
        | .ok b2 => if !b2 then .ok false else injLoop h1s l1s w2 rest

/-- The edge-proximity loop of `is_valid` (lines 368-382): scan the files in
order; the first file whose open interval contains `gps` decides (fail if
`gps` is within `w` of either edge, otherwise stop scanning); if no file
contains `gps` the loop falls through, i.e. the check passes vacuously. -/
def edgeOK : List SegmentRecord → Int → Nat → Bool
  | [], _, _ => true
  | f :: rest, gps, w =>
    if f.start_time < gps ∧ gps < f.start_time + (f.duration : Int) then
      decide (f.start_time + (w : Int) < gps ∧
        gps < f.start_time + (f.duration : Int) - (w : Int))
    else edgeOK rest gps w

/-- First record (in list order) whose open interval `(start, start+duration)`
contains `gps` — the record the loop of lines 368-382 selects. -/
def findContaining : List SegmentRecord → Int → Option SegmentRecord
  | [], _ => none
  | f :: rest, gps =>
    if f.start_time < gps ∧ gps < f.start_time + (f.duration : Int) then some f
    else findContaining rest gps

/-- The code's `gps_start_time` property: `self.hdf_files[0]['start_time']`
(raises IndexError on an empty catalog in Python; the 0 default below is
never exercised, every use site handles the empty catalog separately). -/
def gps_start_time : List SegmentRecord → Int
  | [] => 0
  | f :: _ => f.start_time

/-- The code's `gps_end_time` property:
`self.hdf_files[-1]['start_time'] + self.hdf_files[-1]['duration']`. -/
def gps_end_time : List SegmentRecord → Int
  | [] => 0
  | [f] => f.start_time + (f.duration : Int)
  | _ :: f :: rest => gps_end_time (f :: rest)

/-- The code's `gps2idx`: `gps - self.gps_start_time`. -/
def NoiseTimeline.gps2idx (nt : NoiseTimeline) (gps : Int) : Int :=
  gps - gps_start_time nt.hdf_files

/-- The code's `idx2gps`: `idx + self.gps_start_time`. -/
def NoiseTimeline.idx2gps (nt : NoiseTimeline) (idx : Int) : Int :=
  idx + gps_start_time nt.hdf_files

/-- Lines 384-440 of `is_valid`: slice the four timeline arrays over
`[gps2idx(gps)-delta_t, gps2idx(gps)+delta_t)`, run the two data-quality
checks and then the injection loop (with `ones` of length `2*delta_t`). -/
def NoiseTimeline.maskChecks (nt : NoiseTimeline) (gps_time : Int) (delta_t : Nat)
    (dq_bits inj_bits : List Nat) : Except PyError Bool :=
  if !dqCheckPasses
      (pySlice nt.timeline.h1_dq_mask
        (nt.gps2idx gps_time - (delta_t : Int)) (nt.gps2idx gps_time + (delta_t : Int)))
      (min_dq dq_bits) then .ok false
  else if !dqCheckPasses
      (pySlice nt.timeline.l1_dq_mask
        (nt.gps2idx gps_time - (delta_t : Int)) (nt.gps2idx gps_time + (delta_t : Int)))
      (min_dq dq_bits) then .ok false
  else
    injLoop
      (pySlice nt.timeline.h1_inj_mask
        (nt.gps2idx gps_time - (delta_t : Int)) (nt.gps2idx gps_time + (delta_t : Int)))
      (pySlice nt.timeline.l1_inj_mask
        (nt.gps2idx gps_time - (delta_t : Int)) (nt.gps2idx gps_time + (delta_t : Int)))
      (2 * delta_t) inj_bits

/-- `NoiseTimeline.is_valid` (lines 304-440).  `real_event_times` stands for
the external `pycbc.catalog.Catalog()` merger-time list fetched at line
354-355.  In order: the bit-range asserts, the event-proximity check, the
edge-proximity loop, then the mask checks.  `delta_t : Nat` reflects the
`delta_t >= 0` assert. -/
def NoiseTimeline.is_valid (nt : NoiseTimeline) (real_event_times : List Int)
    (gps_time : Int) (delta_t : Nat) (dq_bits inj_bits : List Nat) :
    Except PyError Bool :=
  if !(dq_bits.all (fun k => decide (k < 7)) && inj_bits.all (fun k => decide (k < 5))) then
    .error .assertError
  else if real_event_times.any (fun e => decide ((gps_time - e).natAbs ≤ delta_t)) then
    .ok false
  else if !edgeOK nt.hdf_files gps_time delta_t then .ok false
  else nt.maskChecks gps_time delta_t dq_bits inj_bits

/-- numpy slice assignment `xs[i:j] = v` (lines 293-297): the destination
window is the clipped slice `[a, b)`; the assignment succeeds when the
value's length equals the window length, or (numpy broadcasting) when the
value has length 1, in which case its element fills the window; any other
shape combination raises `could not broadcast input array`. -/
def pySetSlice (xs : List Nat) (i j : Int) (v : List Nat) : Option (List Nat) :=
  if max (pyNorm xs.length j) (pyNorm xs.length i) - pyNorm xs.length i = v.length then
    some (xs.take (pyNorm xs.length i) ++ v
      ++ xs.drop (max (pyNorm xs.length j) (pyNorm xs.length i)))
  else if v.length = 1 then
    some (xs.take (pyNorm xs.length i)
      ++ List.replicate (max (pyNorm xs.length j) (pyNorm xs.length i) - pyNorm xs.length i)
          (v.headD 0)
      ++ xs.drop (max (pyNorm xs.length j) (pyNorm xs.length i)))
  else none

/-- The injection-mask timeline array of a detector (`h1_inj_mask` /
`l1_inj_mask`). -/
def detInj (tl : Timeline) : Detector → List Nat
  | .H1 => tl.h1_inj_mask
  | .L1 => tl.l1_inj_mask

/-- The quality-mask timeline array of a detector (`h1_dq_mask` /
`l1_dq_mask`). -/
def detDQ (tl : Timeline) : Detector → List Nat
  | .H1 => tl.h1_dq_mask
  | .L1 => tl.l1_dq_mask

/-- Replace one detector's pair of timeline arrays, leaving the other
detector's arrays untouched. -/
def setDet (tl : Timeline) (d : Detector) (inj dq : List Nat) : Timeline :=
  match d with
  | .H1 => { tl with h1_inj_mask := inj, h1_dq_mask := dq }
  | .L1 => { tl with l1_inj_mask := inj, l1_dq_mask := dq }

/-- One iteration of the `_build_timeline` loop (lines 280-297): copy the
record's injection mask and then its quality mask into the slots
`[start_time - gps_start_time, ... + duration)` of its detector's arrays
(the source's `if detector == 'H1'` / `else` branches, folded through the
detector projection). -/
def applyRecord (runStart : Int) (tl : Timeline) (r : SegmentRecord) : Option Timeline :=
  match pySetSlice (detInj tl r.detector) (r.start_time - runStart)
      (r.start_time - runStart + (r.duration : Int)) r.inj_mask with
  | none => none
  | some inj =>
    match pySetSlice (detDQ tl r.detector) (r.start_time - runStart)
        (r.start_time - runStart + (r.duration : Int)) r.dq_mask with
    | none => none
    | some dq => some (setDet tl r.detector inj dq)

/-- Failure conditions of timeline construction: `emptyCatalog` models the
IndexError raised by `self.hdf_files[0]` / `self.hdf_files[-1]` on an
empty catalog, `negativeSize` the ValueError of `np.zeros` on a negative
length, `broadcastMismatch` the numpy shape error of a mask copy. -/
inductive BuildError where
  | emptyCatalog
  | negativeSize
  | broadcastMismatch
deriving DecidableEq, Repr

/-- The record loop of `_build_timeline`. -/
def buildLoop (runStart : Int) : Timeline → List SegmentRecord → Option Timeline
  | tl, [] => some tl
  | tl, r :: rs =>
    match applyRecord runStart tl r with
    | some tl2 => buildLoop runStart tl2 rs
    | none => none

/-- `NoiseTimeline._build_timeline` (lines 268-300) together with the
`gps_start_time` / `gps_end_time` accessors it calls: allocate four zero
arrays of length `gps_end_time - gps_start_time` and copy every record's
masks in catalog order.  No partial timeline is produced on any failure. -/
def build_timeline (files : List SegmentRecord) : Except BuildError NoiseTimeline :=
  match files with
  | [] => .error .emptyCatalog
  | f :: rest =>
    if gps_end_time (f :: rest) < gps_start_time (f :: rest) then .error .negativeSize
    else
      match buildLoop (gps_start_time (f :: rest))
          ⟨List.replicate (gps_end_time (f :: rest) - gps_start_time (f :: rest)).toNat 0,
           List.replicate (gps_end_time (f :: rest) - gps_start_time (f :: rest)).toNat 0,
           List.replicate (gps_end_time (f :: rest) - gps_start_time (f :: rest)).toNat 0,
           List.replicate (gps_end_time (f :: rest) - gps_start_time (f :: rest)).toNat 0⟩
          (f :: rest) with
      | some tl => .ok ⟨f :: rest, tl⟩
      | none => .error .broadcastMismatch

/-- `np.random.randint(lo, hi)` for `lo < hi`: a value of `[lo, hi)`
determined by the generator; the draw `r` supplied by the generator oracle
is mapped into the range. -/
def randint (lo hi : Int) (r : Nat) : Int := lo + (r : Int) % (hi - lo)

/-- `NoiseTimeline.sample` (lines 444-482): rejection sampling.  `rng k` is
the generator's k-th output; `fuel` bounds the number of iterations we
unfold (the Python loop is unbounded; `.ok none` means the bound was hit
with no success, in which case Python would simply keep looping).
`np.random.randint` raises ValueError when the range `[lo, hi)` is empty. -/
def NoiseTimeline.sample (nt : NoiseTimeline) (real_event_times : List Int)
    (delta_t : Nat) (dq_bits inj_bits : List Nat) (rng : Nat → Nat) :
    Nat → Nat → Except PyError (Option Int)
  | _, 0 => .ok none
  | k, fuel + 1 =>
    if gps_end_time nt.hdf_files - (delta_t : Int) ≤
        gps_start_time nt.hdf_files + (delta_t : Int) then .error .valueError
    else
      match nt.is_valid real_event_times
          (randint (gps_start_time nt.hdf_files + (delta_t : Int))
            (gps_end_time nt.hdf_files - (delta_t : Int)) (rng k))
          delta_t dq_bits inj_bits with
      | .error e => .error e
      | .ok true =>
        .ok (some (randint (gps_start_time nt.hdf_files + (delta_t : Int))
          (gps_end_time nt.hdf_files - (delta_t : Int)) (rng k)))
      | .ok false => nt.sample real_event_times delta_t dq_bits inj_bits rng (k + 1) fuel

/-- Helper for `stride`: `c` counts the remaining elements to skip before
the next one that is kept. -/
def strideAux {α : Type} (k : Nat) : Nat → List α → List α
  | _, [] => []
  | 0, x :: rest => x :: strideAux k (k - 1) rest
  | c + 1, _ :: rest => strideAux k c rest

/-- Python strided read `xs[::k]` for `k ≥ 1`: keep every k-th element. -/
def stride {α : Type} (k : Nat) (xs : List α) : List α := strideAux k 0 xs

/-- `get_strain_from_hdf_file` (lines 57-149), one call covering both
detectors; the strain arrays and their `GPSstart` values stand for the two
HDF files.  Sample values are opaque (`α`).  Order of failures follows the
code: the divisor / modulo assert on the sampling rates, then the zero
slice step (`[::0]` raises ValueError), then slice and decimate. -/
def get_strain_from_hdf_file {α : Type} (strainH strainL : List α) (startH startL : Int)
    (gps_time delta_t : Int) (original_sampling_rate target_sampling_rate : Nat) :
    Except PyError (List α × List α) :=
  if target_sampling_rate = 0 then .error .zeroDivisionError
  else if original_sampling_rate % target_sampling_rate ≠ 0 then .error .assertError
  else if original_sampling_rate / target_sampling_rate = 0 then .error .valueError
  else
    .ok (stride (original_sampling_rate / target_sampling_rate)
          (pySlice strainH
            ((gps_time - startH - delta_t) * (original_sampling_rate : Int))
            ((gps_time - startH + delta_t) * (original_sampling_rate : Int))),
         stride (original_sampling_rate / target_sampling_rate)
          (pySlice strainL
            ((gps_time - startL - delta_t) * (original_sampling_rate : Int))
            ((gps_time - startL + delta_t) * (original_sampling_rate : Int))))

example : pySlice [10, 11, 12, 13] (1 : Int) 3 = [11, 12] := by decide
example : pySlice [10, 11, 12, 13] (-3 : Int) (-1 : Int) = [11, 12] := by decide
example : pySlice [10, 11, 12, 13] (2 : Int) 9 = [12, 13] := by decide
example : pySlice [10, 11, 12, 13] (-9 : Int) 2 = [10, 11] := by decide
example : stride 2 [1, 2, 3, 4, 5, 6] = [1, 3, 5] := by decide
example : stride 1 [1, 2, 3] = [1, 2, 3] := by decide

/-- A concrete catalog: two aligned H1/L1 file pairs sharing the boundary at
GPS time 8; every second passes all quality tiers (127) and has all
injection-absence bits set (31). -/
def ctFiles : List SegmentRecord :=
  [⟨0, .H1, 8, List.replicate 8 31, List.replicate 8 127⟩,
   ⟨0, .L1, 8, List.replicate 8 31, List.replicate 8 127⟩,
   ⟨8, .H1, 8, List.replicate 8 31, List.replicate 8 127⟩,
   ⟨8, .L1, 8, List.replicate 8 31, List.replicate 8 127⟩]

/-- The timeline built from `ctFiles`. -/
def ctNT : NoiseTimeline :=
  ⟨ctFiles, ⟨List.replicate 16 31, List.replicate 16 31,
    List.replicate 16 127, List.replicate 16 127⟩⟩

example : build_timeline ctFiles = .ok ctNT := by decide
example : ctNT.is_valid [] 4 2 [0, 1, 2, 3] [0, 1, 2, 4] = .ok true := by decide
example : ctNT.is_valid [] 8 2 [0, 1, 2, 3] [0, 1, 2, 4] = .ok true := by decide
example : ctNT.is_valid [] 2 2 [0, 1, 2, 3] [0, 1, 2, 4] = .ok false := by decide
example : ctNT.is_valid [4] 4 2 [0, 1, 2, 3] [0, 1, 2, 4] = .ok false := by decide
example : edgeOK ctFiles 2 2 = false := by decide
example : findContaining ctFiles 8 = none := by decide
example : ctNT.sample [] 2 [0, 1, 2, 3] [0, 1, 2, 4] (fun _ => 2) 0 1 = .ok (some 4) := by decide

/-- A normalised Python slice bound never exceeds the list length. -/
theorem pyNorm_le (n : Nat) (i : Int) : pyNorm n i ≤ n := by
  unfold pyNorm
  split <;> omega

/-- Length of a Python slice read in terms of the normalised bounds. -/
theorem pySlice_length {α : Type} (xs : List α) (i j : Int) :
    (pySlice xs i j).length = pyNorm xs.length j - pyNorm xs.length i := by
  unfold pySlice
  have h := pyNorm_le xs.length j
  simp [List.length_drop, List.length_take]
  omega

/-- Value of a normalised slice bound that is already in range. -/
theorem pyNorm_eq_toNat (n : Nat) (i : Int) (hi : 0 ≤ i) (hn : i ≤ (n : Int)) :
    pyNorm n i = i.toNat := by
  unfold pyNorm
  split <;> omega

/-- An in-range slice read is an exact take-drop window. -/
theorem pySlice_inbounds {α : Type} (xs : List α) (i j : Int)
    (hi : 0 ≤ i) (hij : i ≤ j) (hj : j ≤ (xs.length : Int)) :
    pySlice xs i j = (xs.take j.toNat).drop i.toNat := by
  unfold pySlice
  rw [pyNorm_eq_toNat xs.length i hi (by omega), pyNorm_eq_toNat xs.length j (by omega) hj]

/-- Every element of a slice read is an element of the underlying list. -/
theorem mem_of_mem_pySlice {α : Type} {xs : List α} {i j : Int} {x : α}
    (h : x ∈ pySlice xs i j) : x ∈ xs := by
  unfold pySlice at h
  exact List.mem_of_mem_take (List.mem_of_mem_drop h)

/-- Unfolding of the data-quality test as a universally quantified bound. -/
theorem dqCheckPasses_iff (xs : List Nat) (m : Nat) :
    dqCheckPasses xs m = true ↔ ∀ x ∈ xs, m < x := by
  unfold dqCheckPasses
  simp

/-- C1.  The quality-tier check of `is_valid` uses integer-magnitude
comparison: with `min_dq dq_bits` the sum of `2^k` over the required
tiers, the two-detector check over the window slice
`[gps2idx(gps)-w, gps2idx(gps)+w)` of the quality arrays passes iff every
element of both slices is strictly greater than the threshold; a
(nonempty) window whose elements all equal the threshold fails, and a
window whose elements all equal the threshold plus one passes.  The
bounds `hb1`, `hb2` restrict to int32-representable mask contents. -/
theorem C1_quality_magnitude (nt : NoiseTimeline) (gps : Int) (w : Nat)
    (dq_bits : List Nat)
    (hb1 : ∀ x ∈ nt.timeline.h1_dq_mask, x < 2 ^ 31)
    (hb2 : ∀ x ∈ nt.timeline.l1_dq_mask, x < 2 ^ 31) :
    ((dqCheckPasses
        (pySlice nt.timeline.h1_dq_mask (nt.gps2idx gps - (w : Int)) (nt.gps2idx gps + (w : Int)))
        (min_dq dq_bits)
      && dqCheckPasses
        (pySlice nt.timeline.l1_dq_mask (nt.gps2idx gps - (w : Int)) (nt.gps2idx gps + (w : Int)))
        (min_dq dq_bits)) = true
      ↔ ((∀ x ∈ pySlice nt.timeline.h1_dq_mask
            (nt.gps2idx gps - (w : Int)) (nt.gps2idx gps + (w : Int)), min_dq dq_bits < x)
        ∧ (∀ x ∈ pySlice nt.timeline.l1_dq_mask
            (nt.gps2idx gps - (w : Int)) (nt.gps2idx gps + (w : Int)), min_dq dq_bits < x)))
    ∧ (0 < w →
        dqCheckPasses (List.replicate (2 * w) (min_dq dq_bits)) (min_dq dq_bits) = false)
    ∧ dqCheckPasses (List.replicate (2 * w) (min_dq dq_bits + 1)) (min_dq dq_bits) = true := by
  refine ⟨?_, ?_, ?_⟩
  · rw [Bool.and_eq_true, dqCheckPasses_iff, dqCheckPasses_iff]
  · intro hw
    unfold dqCheckPasses
    rw [List.all_eq_false]
    exact ⟨min_dq dq_bits, List.mem_replicate.mpr ⟨by omega, rfl⟩, by simp⟩
  · unfold dqCheckPasses
    simp only [List.all_eq_true, List.mem_replicate]
    intro x hx
    rw [hx.2]
    simp

/-- Witness for C1 at the concrete timeline `ctNT`, center 4, half-window 2,
required tiers 0-3 (threshold 15). -/
theorem C1_quality_magnitude_witness :
    dqCheckPasses (List.replicate (2 * 2) (min_dq [0, 1, 2, 3])) (min_dq [0, 1, 2, 3]) = false :=
  (C1_quality_magnitude ctNT 4 2 [0, 1, 2, 3] (by decide) (by decide)).2.1 (by decide)

/-- When the scan of lines 368-382 selects record `r` (the first containing
one), the edge check reduces to the strict two-sided distance test on `r`. -/
theorem edgeOK_eq_of_findContaining (files : List SegmentRecord) (gps : Int) (w : Nat)
    (r : SegmentRecord) (h : findContaining files gps = some r) :
    edgeOK files gps w =
      decide (r.start_time + (w : Int) < gps ∧
        gps < r.start_time + (r.duration : Int) - (w : Int)) := by
  induction files with
  | nil => simp [findContaining] at h
  | cons f rest ih =>
    simp only [findContaining] at h
    simp only [edgeOK]
    by_cases hc : f.start_time < gps ∧ gps < f.start_time + (f.duration : Int)
    · rw [if_pos hc] at h
      rw [if_pos hc]
      injection h with h2
      subst h2
      rfl
    · rw [if_neg hc] at h
      rw [if_neg hc]
      exact ih h

/-- When no file's open interval contains `gps`, the scan of lines 368-382
falls through and the edge check passes vacuously. -/
theorem edgeOK_of_findContaining_none (files : List SegmentRecord) (gps : Int) (w : Nat)
    (h : findContaining files gps = none) : edgeOK files gps w = true := by
  induction files with
  | nil => rfl
  | cons f rest ih =>
    simp only [findContaining] at h
    simp only [edgeOK]
    by_cases hc : f.start_time < gps ∧ gps < f.start_time + (f.duration : Int)
    · rw [if_pos hc] at h
      exact absurd h (by simp)
    · rw [if_neg hc] at h
      rw [if_neg hc]
      exact ih h

/-- C3 as amended.  For the FIRST record (in catalog order) whose open
interval strictly contains the center time, centers in the half-open
union `(S, S+W] ∪ [S+D−W, S+D)` fail the edge-proximity check (the code's
test `S + W < gps < S + D − W` is strict on both sides, so the boundary
points `S+W` and `S+D−W` fail, contrary to the original claim's closed
pass-interval), and centers strictly inside `(S+W, S+D−W)` pass it. -/
theorem C3_edge_proximity (files : List SegmentRecord) (r : SegmentRecord)
    (gps : Int) (w : Nat) (hfind : findContaining files gps = some r) :
    ((gps ≤ r.start_time + (w : Int) ∨
        r.start_time + (r.duration : Int) - (w : Int) ≤ gps) →
      edgeOK files gps w = false)
    ∧ (r.start_time + (w : Int) < gps →
        gps < r.start_time + (r.duration : Int) - (w : Int) →
      edgeOK files gps w = true) := by
  rw [edgeOK_eq_of_findContaining files gps w r hfind]
  constructor
  · intro h
    simp only [decide_eq_false_iff_not, not_and, not_lt]
    omega
  · intro h1 h2
    simp only [decide_eq_true_eq]
    exact ⟨h1, h2⟩

/-- Counterexample to C3 as stated: in the catalog `ctFiles`, the center 2
lies in the claimed closed pass-interval `[S+W, S+D−W] = [2, 6]` of the
containing record `[0, 8)` with half-window 2, yet the edge-proximity
check fails (the code's comparison is strict). -/
theorem C3_counterexample :
    findContaining ctFiles 2 =
      some ⟨0, .H1, 8, List.replicate 8 31, List.replicate 8 127⟩
    ∧ edgeOK ctFiles 2 2 = false := by decide

/-- Witness for C3 at catalog `ctFiles`, center 4, half-window 1. -/
theorem C3_edge_proximity_witness : edgeOK ctFiles 4 1 = true :=
  (C3_edge_proximity ctFiles ⟨0, .H1, 8, List.replicate 8 31, List.replicate 8 127⟩
    4 1 (by decide)).2 (by decide) (by decide)

/-- C4 as amended.  When no record's open interval strictly contains the
center time (e.g. a center on a shared file boundary), `is_valid` does
NOT return false on that account: the edge-proximity loop falls through,
and the result is exactly what the remaining checks (asserts, event
proximity, mask checks) yield. -/
theorem C4_no_containing_record (nt : NoiseTimeline) (events : List Int)
    (gps : Int) (w : Nat) (dq_bits inj_bits : List Nat)
    (hfind : findContaining nt.hdf_files gps = none) :
    edgeOK nt.hdf_files gps w = true
    ∧ nt.is_valid events gps w dq_bits inj_bits =
        (if !(dq_bits.all (fun k => decide (k < 7))
            && inj_bits.all (fun k => decide (k < 5))) then .error .assertError
         else if events.any (fun e => decide ((gps - e).natAbs ≤ w)) then .ok false
         else nt.maskChecks gps w dq_bits inj_bits) := by
  have he := edgeOK_of_findContaining_none nt.hdf_files gps w hfind
  refine ⟨he, ?_⟩
  unfold NoiseTimeline.is_valid
  rw [he]
  simp

/-- Counterexample to C4 as stated: the center 8 sits exactly on the shared
file boundary of `ctFiles`, so no record strictly contains it, yet
`is_valid` returns true (it proceeds to the mask checks instead of
returning false). -/
theorem C4_counterexample :
    findContaining ctFiles 8 = none
    ∧ ctNT.is_valid [] 8 2 [0, 1, 2, 3] [0, 1, 2, 4] = .ok true := by decide

/-- Witness for C4 at `ctNT`, center 8 (boundary), half-window 2. -/
theorem C4_no_containing_record_witness : edgeOK ctNT.hdf_files 8 2 = true :=
  (C4_no_containing_record ctNT [] 8 2 [0, 1, 2, 3] [0, 1, 2, 4] (by decide)).1

/-- When the window slice has exactly the length of the `ones` array, the
numpy bitwise test reduces to an elementwise all-bits check. -/
theorem npAll_of_length_eq (xs : List Nat) (w2 : Nat) (i : Nat)
    (h : xs.length = w2) :
    npAllAndOnesShift xs w2 i = .ok (xs.all (fun x => (x &&& (1 <<< i)) != 0)) := by
  unfold npAllAndOnesShift
  rw [if_pos (Or.inl h)]

/-- Characterisation of the injection loop on well-shaped windows: it
returns true iff every requested bit is set in every element of both
windows. -/
theorem injLoop_ok_true_iff (h1s l1s : List Nat) (w2 : Nat) (bits : List Nat)
    (hl1 : h1s.length = w2) (hl2 : l1s.length = w2) :
    injLoop h1s l1s w2 bits = .ok true ↔
      ∀ k ∈ bits, (∀ x ∈ h1s, x &&& (1 <<< k) ≠ 0) ∧ (∀ x ∈ l1s, x &&& (1 <<< k) ≠ 0) := by
  induction bits with
  | nil => simp [injLoop]
  | cons b rest ih =>
    simp only [injLoop, npAll_of_length_eq h1s w2 b hl1, npAll_of_length_eq l1s w2 b hl2]
    by_cases hA : h1s.all (fun x => (x &&& (1 <<< b)) != 0) = true
    · by_cases hB : l1s.all (fun x => (x &&& (1 <<< b)) != 0) = true
      · simp only [hA, hB, Bool.not_true, Bool.false_eq_true, if_false]
        rw [ih]
        simp only [List.all_eq_true, bne_iff_ne, ne_eq] at hA hB
        constructor
        · intro h k hk
          rcases List.mem_cons.mp hk with hk | hk
          · subst hk
            exact ⟨hA, hB⟩
          · exact h k hk
        · intro h k hk
          exact h k (List.mem_cons_of_mem b hk)
      · have hB' := eq_false_of_ne_true hB
        simp only [hA, hB', Bool.not_true, Bool.not_false, Bool.false_eq_true, if_false,
          if_true]
        constructor
        · intro h
          cases h
        · intro h
          simp only [List.all_eq_true, bne_iff_ne, ne_eq] at hB
          exact absurd (fun x hx => (h b (List.mem_cons_self b rest)).2 x hx) hB
    · have hA' := eq_false_of_ne_true hA
      simp only [hA', Bool.not_false, if_true]
      constructor
      · intro h
        cases h
      · intro h
        simp only [List.all_eq_true, bne_iff_ne, ne_eq] at hA
        exact absurd (fun x hx => (h b (List.mem_cons_self b rest)).1 x hx) hA

/-- On well-shaped windows, a single element missing a required bit forces
the injection loop to return false. -/
theorem injLoop_ok_false_of_violation (h1s l1s : List Nat) (w2 : Nat)
    (bits : List Nat) (k x : Nat) (hl1 : h1s.length = w2) (hl2 : l1s.length = w2)
    (hk : k ∈ bits) (hx : x ∈ h1s ∨ x ∈ l1s) (hv : x &&& (1 <<< k) = 0) :
    injLoop h1s l1s w2 bits = .ok false := by
  induction bits with
  | nil => cases hk
  | cons b rest ih =>
    simp only [injLoop, npAll_of_length_eq h1s w2 b hl1, npAll_of_length_eq l1s w2 b hl2]
    by_cases hA : h1s.all (fun y => (y &&& (1 <<< b)) != 0) = true
    · by_cases hB : l1s.all (fun y => (y &&& (1 <<< b)) != 0) = true
      · simp only [hA, hB, Bool.not_true, Bool.false_eq_true, if_false]
        have hk' : k ∈ rest := by
          rcases List.mem_cons.mp hk with hk0 | hk0
          · subst hk0
            simp only [List.all_eq_true, bne_iff_ne, ne_eq] at hA hB
            rcases hx with hx | hx
            · exact absurd hv (hA x hx)
            · exact absurd hv (hB x hx)
          · exact hk0
        exact ih hk'
      · have hB' := eq_false_of_ne_true hB
        simp [hA, hB']
    · have hA' := eq_false_of_ne_true hA
      simp [hA']

/-- C7.  Timeline construction on an empty catalog fails with the empty
catalog condition (the Python IndexError of `self.hdf_files[0]` inside
`gps_start_time`, modelled as `BuildError.emptyCatalog`); since the
result is an error, no timeline value is exposed. -/
theorem C7_empty_catalog : build_timeline [] = .error .emptyCatalog := rfl

/-- C6.  The injection-category check of `is_valid`: on the in-range window
slices (length `2*w`) of the injection-mask arrays, the loop passes iff,
for every required category bit and for both detectors, every element has
that bit set; and a single element with a required bit clear, on either
detector, makes `is_valid` return false.  The bounds `hb1`, `hb2`
restrict to int32-representable mask contents. -/
theorem C6_injection_bits (nt : NoiseTimeline) (events : List Int) (gps : Int)
    (w : Nat) (dq_bits inj_bits : List Nat) (k x : Nat)
    (hdq : ∀ b ∈ dq_bits, b < 7) (hinj : ∀ b ∈ inj_bits, b < 5)
    (hb1 : ∀ y ∈ nt.timeline.h1_inj_mask, y < 2 ^ 31)
    (hb2 : ∀ y ∈ nt.timeline.l1_inj_mask, y < 2 ^ 31)
    (hl1 : (pySlice nt.timeline.h1_inj_mask
        (nt.gps2idx gps - (w : Int)) (nt.gps2idx gps + (w : Int))).length = 2 * w)
    (hl2 : (pySlice nt.timeline.l1_inj_mask
        (nt.gps2idx gps - (w : Int)) (nt.gps2idx gps + (w : Int))).length = 2 * w) :
    (injLoop
        (pySlice nt.timeline.h1_inj_mask
          (nt.gps2idx gps - (w : Int)) (nt.gps2idx gps + (w : Int)))
        (pySlice nt.timeline.l1_inj_mask
          (nt.gps2idx gps - (w : Int)) (nt.gps2idx gps + (w : Int)))
        (2 * w) inj_bits = .ok true
      ↔ ∀ b ∈ inj_bits,
          (∀ y ∈ pySlice nt.timeline.h1_inj_mask
              (nt.gps2idx gps - (w : Int)) (nt.gps2idx gps + (w : Int)),
            y &&& (1 <<< b) ≠ 0)
          ∧ (∀ y ∈ pySlice nt.timeline.l1_inj_mask
              (nt.gps2idx gps - (w : Int)) (nt.gps2idx gps + (w : Int)),
            y &&& (1 <<< b) ≠ 0))
    ∧ (k ∈ inj_bits →
        (x ∈ pySlice nt.timeline.h1_inj_mask
            (nt.gps2idx gps - (w : Int)) (nt.gps2idx gps + (w : Int))
          ∨ x ∈ pySlice nt.timeline.l1_inj_mask
            (nt.gps2idx gps - (w : Int)) (nt.gps2idx gps + (w : Int))) →
        x &&& (1 <<< k) = 0 →
        nt.is_valid events gps w dq_bits inj_bits = .ok false) := by
  refine ⟨injLoop_ok_true_iff _ _ _ _ hl1 hl2, ?_⟩
  intro hk hx hv
  unfold NoiseTimeline.is_valid
  have hA : (dq_bits.all (fun b => decide (b < 7))
      && inj_bits.all (fun b => decide (b < 5))) = true := by
    simp only [Bool.and_eq_true, List.all_eq_true, decide_eq_true_eq]
    exact ⟨hdq, hinj⟩
  rw [hA]
  simp only [Bool.not_true, Bool.false_eq_true, if_false]
  by_cases hev : events.any (fun e => decide ((gps - e).natAbs ≤ w)) = true
  · rw [if_pos hev]
  · rw [if_neg hev]
    by_cases hedge : edgeOK nt.hdf_files gps w = true
    · rw [hedge]
      simp only [Bool.not_true, Bool.false_eq_true, if_false]
      unfold NoiseTimeline.maskChecks
      by_cases hdq1 : dqCheckPasses
          (pySlice nt.timeline.h1_dq_mask
            (nt.gps2idx gps - (w : Int)) (nt.gps2idx gps + (w : Int)))
          (min_dq dq_bits) = true
      · rw [hdq1]
        simp only [Bool.not_true, Bool.false_eq_true, if_false]
        by_cases hdq2 : dqCheckPasses
            (pySlice nt.timeline.l1_dq_mask
              (nt.gps2idx gps - (w : Int)) (nt.gps2idx gps + (w : Int)))
            (min_dq dq_bits) = true
        · rw [hdq2]
          simp only [Bool.not_true, Bool.false_eq_true, if_false]
          exact injLoop_ok_false_of_violation _ _ _ _ k x hl1 hl2 hk hx hv
        · rw [eq_false_of_ne_true hdq2]
          simp
      · rw [eq_false_of_ne_true hdq1]
        simp
    · rw [eq_false_of_ne_true hedge]
      simp

/-- Witness for C6: the concrete timeline `c6NT` whose H1 injection array
has bit 0 clear at second 2; the window `[1, 5)` around center 3 with
half-window 2 contains it, so `is_valid` returns false. -/
def c6NT : NoiseTimeline :=
  ⟨[⟨0, .H1, 6, [31, 31, 30, 31, 31, 31], List.replicate 6 127⟩,
    ⟨0, .L1, 6, List.replicate 6 31, List.replicate 6 127⟩],
   ⟨[31, 31, 30, 31, 31, 31], List.replicate 6 31,
    List.replicate 6 127, List.replicate 6 127⟩⟩

/-- Witness for C6 at `c6NT`, center 3, half-window 2, required bit 0,
violating element 30. -/
theorem C6_injection_bits_witness :
    c6NT.is_valid [] 3 2 [0, 1, 2, 3] [0, 1, 2, 4] = .ok false :=
  (C6_injection_bits c6NT [] 3 2 [0, 1, 2, 3] [0, 1, 2, 4] 0 30
    (by decide) (by decide) (by decide) (by decide) (by decide) (by decide)).2
    (by decide) (by decide) (by decide)

/-- A draw mapped through `randint` always lands in `[lo, hi)` when the
range is nonempty. -/
theorem randint_mem (lo hi : Int) (r : Nat) (h : lo < hi) :
    lo ≤ randint lo hi r ∧ randint lo hi r < hi := by
  unfold randint
  have h1 : 0 ≤ (r : Int) % (hi - lo) := Int.emod_nonneg r (by omega)
  have h2 : (r : Int) % (hi - lo) < hi - lo := Int.emod_lt_of_pos r (by omega)
  omega

/-- C5.  The rejection-sampling loop of `sample`: every candidate is drawn
from the integer interval `[gps_start_time + delta_t, gps_end_time -
delta_t)` (upper bound exclusive), and a returned time always satisfies
`is_valid` with the identical arguments — `sample` never returns a time
for which `is_valid` is false (or an error). -/
theorem C5_sample_is_valid (nt : NoiseTimeline) (events : List Int) (w : Nat)
    (dq_bits inj_bits : List Nat) (rng : Nat → Nat) (k fuel : Nat) (t : Int)
    (h : nt.sample events w dq_bits inj_bits rng k fuel = .ok (some t)) :
    nt.is_valid events t w dq_bits inj_bits = .ok true
    ∧ gps_start_time nt.hdf_files + (w : Int) ≤ t
    ∧ t < gps_end_time nt.hdf_files - (w : Int)
    ∧ (∀ r : Nat,
        gps_start_time nt.hdf_files + (w : Int) ≤
          randint (gps_start_time nt.hdf_files + (w : Int))
            (gps_end_time nt.hdf_files - (w : Int)) r
        ∧ randint (gps_start_time nt.hdf_files + (w : Int))
            (gps_end_time nt.hdf_files - (w : Int)) r <
          gps_end_time nt.hdf_files - (w : Int)) := by
  induction fuel generalizing k with
  | zero => simp [NoiseTimeline.sample] at h
  | succ n ih =>
    rw [NoiseTimeline.sample] at h
    by_cases hr : gps_end_time nt.hdf_files - (w : Int) ≤
        gps_start_time nt.hdf_files + (w : Int)
    · rw [if_pos hr] at h
      cases h
    · rw [if_neg hr] at h
      rcases hv : nt.is_valid events
          (randint (gps_start_time nt.hdf_files + (w : Int))
            (gps_end_time nt.hdf_files - (w : Int)) (rng k))
          w dq_bits inj_bits with e | b
      · rw [hv] at h
        cases h
      · rw [hv] at h
        cases b with
        | true =>
          simp only [Except.ok.injEq, Option.some.injEq] at h
          subst h
          have hm := randint_mem (gps_start_time nt.hdf_files + (w : Int))
            (gps_end_time nt.hdf_files - (w : Int)) (rng k) (by omega)
          exact ⟨hv, hm.1, hm.2,
            fun r => randint_mem (gps_start_time nt.hdf_files + (w : Int))
              (gps_end_time nt.hdf_files - (w : Int)) r (by omega)⟩
        | false => exact ih (k + 1) h

/-- Witness for C5 at `ctNT`: the first draw maps to center 4, which is
valid, and `sample` returns it. -/
theorem C5_sample_is_valid_witness :
    ctNT.is_valid [] 4 2 [0, 1, 2, 3] [0, 1, 2, 4] = .ok true :=
  (C5_sample_is_valid ctNT [] 2 [0, 1, 2, 3] [0, 1, 2, 4] (fun _ => 2) 0 1 4
    (by decide)).1

/-- Skipping `c` elements first is the same as dropping them. -/
theorem strideAux_eq_drop {α : Type} (k : Nat) (xs : List α) :
    ∀ c, strideAux k c xs = strideAux k 0 (xs.drop c) := by
  induction xs with
  | nil => intro c; cases c <;> rfl
  | cons x rest ih =>
    intro c
    cases c with
    | zero => rfl
    | succ c2 =>
      rw [show strideAux k (c2 + 1) (x :: rest) = strideAux k c2 rest from rfl,
        List.drop_succ_cons]
      exact ih c2

/-- Recursion equation of the strided read: keep the head, skip `k - 1`. -/
theorem stride_cons {α : Type} (k : Nat) (x : α) (rest : List α) :
    stride k (x :: rest) = x :: stride k (rest.drop (k - 1)) := by
  unfold stride
  rw [show strideAux k 0 (x :: rest) = x :: strideAux k (k - 1) rest from rfl,
    strideAux_eq_drop]

/-- A stride of 1 returns the list unmodified. -/
theorem stride_one {α : Type} (xs : List α) : stride 1 xs = xs := by
  induction xs with
  | nil => rfl
  | cons x rest ih =>
    rw [stride_cons]
    simpa using ih

/-- A list of length `k * t` strided by `k ≥ 1` has length `t`. -/
theorem stride_length_mul {α : Type} (k : Nat) (hk : 1 ≤ k) :
    ∀ (t : Nat) (xs : List α), xs.length = k * t → (stride k xs).length = t := by
  intro t
  induction t with
  | zero =>
    intro xs h
    have hx : xs = [] := List.eq_nil_of_length_eq_zero (by omega)
    subst hx
    rfl
  | succ n ih =>
    intro xs h
    rw [Nat.mul_succ] at h
    cases xs with
    | nil =>
      simp only [List.length_nil] at h
      omega
    | cons x rest =>
      rw [stride_cons]
      simp only [List.length_cons] at h ⊢
      rw [ih (rest.drop (k - 1)) (by simp only [List.length_drop]; omega)]

/-- C8.  Under the preconditions that the source rate is `m` times the
target rate and that each detector's raw array fully covers the index
window, `extract` returns per detector the raw slice
`[(gps-start-dt)*orig, (gps-start+dt)*orig)` decimated by keeping every
m-th sample, of length exactly `2 * dt * target`; and when `m = 1`
(source rate equals target rate) the result is the unmodified raw slice
of length `2 * dt * orig`. -/
theorem C8_extract_decimation (α : Type) (strainH strainL : List α)
    (startH startL gps dt : Int) (m target : Nat)
    (hm : 1 ≤ m) (ht : 0 < target) (hdt : 0 ≤ dt)
    (hH0 : 0 ≤ (gps - startH - dt) * ((m * target : Nat) : Int))
    (hH1 : (gps - startH + dt) * ((m * target : Nat) : Int) ≤ (strainH.length : Int))
    (hL0 : 0 ≤ (gps - startL - dt) * ((m * target : Nat) : Int))
    (hL1 : (gps - startL + dt) * ((m * target : Nat) : Int) ≤ (strainL.length : Int)) :
    get_strain_from_hdf_file strainH strainL startH startL gps dt (m * target) target =
      .ok (stride m (pySlice strainH
            ((gps - startH - dt) * ((m * target : Nat) : Int))
            ((gps - startH + dt) * ((m * target : Nat) : Int))),
           stride m (pySlice strainL
            ((gps - startL - dt) * ((m * target : Nat) : Int))
            ((gps - startL + dt) * ((m * target : Nat) : Int))))
    ∧ (stride m (pySlice strainH
          ((gps - startH - dt) * ((m * target : Nat) : Int))
          ((gps - startH + dt) * ((m * target : Nat) : Int)))).length
        = 2 * dt.toNat * target
    ∧ (stride m (pySlice strainL
          ((gps - startL - dt) * ((m * target : Nat) : Int))
          ((gps - startL + dt) * ((m * target : Nat) : Int)))).length
        = 2 * dt.toNat * target
    ∧ (m = 1 →
        get_strain_from_hdf_file strainH strainL startH startL gps dt (m * target) target =
          .ok (pySlice strainH
                ((gps - startH - dt) * ((m * target : Nat) : Int))
                ((gps - startH + dt) * ((m * target : Nat) : Int)),
               pySlice strainL
                ((gps - startL - dt) * ((m * target : Nat) : Int))
                ((gps - startL + dt) * ((m * target : Nat) : Int)))
        ∧ (pySlice strainH
            ((gps - startH - dt) * ((m * target : Nat) : Int))
            ((gps - startH + dt) * ((m * target : Nat) : Int))).length
            = 2 * dt.toNat * (m * target)) := by
  have horigpos : 0 < ((m * target : Nat) : Int) := by
    have : 0 < m * target := Nat.mul_pos (by omega) ht
    exact_mod_cast this
  have hsliceH : (pySlice strainH
      ((gps - startH - dt) * ((m * target : Nat) : Int))
      ((gps - startH + dt) * ((m * target : Nat) : Int))).length
      = m * (2 * dt.toNat * target) := by
    rw [pySlice_length,
      pyNorm_eq_toNat _ _ hH0 (by nlinarith),
      pyNorm_eq_toNat _ _ (by nlinarith) hH1]
    have hexp : (gps - startH + dt) * ((m * target : Nat) : Int) =
        (gps - startH - dt) * ((m * target : Nat) : Int)
          + ((2 * dt.toNat * (m * target) : Nat) : Int) := by
      push_cast
      have : ((dt.toNat : Int)) = dt := Int.toNat_of_nonneg hdt
      rw [this]
      ring
    rw [hexp]
    rw [Int.toNat_add (by exact hH0) (by positivity), Int.toNat_natCast]
    have : (2 * dt.toNat * (m * target)) = m * (2 * dt.toNat * target) := by ring
    omega
  have hsliceL : (pySlice strainL
      ((gps - startL - dt) * ((m * target : Nat) : Int))
      ((gps - startL + dt) * ((m * target : Nat) : Int))).length
      = m * (2 * dt.toNat * target) := by
    rw [pySlice_length,
      pyNorm_eq_toNat _ _ hL0 (by nlinarith),
      pyNorm_eq_toNat _ _ (by nlinarith) hL1]
    have hexp : (gps - startL + dt) * ((m * target : Nat) : Int) =
        (gps - startL - dt) * ((m * target : Nat) : Int)
          + ((2 * dt.toNat * (m * target) : Nat) : Int) := by
      push_cast
      have : ((dt.toNat : Int)) = dt := Int.toNat_of_nonneg hdt
      rw [this]
      ring
    rw [hexp]
    rw [Int.toNat_add (by exact hL0) (by positivity), Int.toNat_natCast]
    have : (2 * dt.toNat * (m * target)) = m * (2 * dt.toNat * target) := by ring
    omega
  have hfac : m * target / target = m := Nat.mul_div_cancel m ht
  have hmain : get_strain_from_hdf_file strainH strainL startH startL gps dt
      (m * target) target =
      .ok (stride m (pySlice strainH
            ((gps - startH - dt) * ((m * target : Nat) : Int))
            ((gps - startH + dt) * ((m * target : Nat) : Int))),
           stride m (pySlice strainL
            ((gps - startL - dt) * ((m * target : Nat) : Int))
            ((gps - startL + dt) * ((m * target : Nat) : Int)))) := by
    unfold get_strain_from_hdf_file
    rw [if_neg (by omega : ¬ target = 0),
      if_neg (by simp [Nat.mul_mod_left]), hfac,
      if_neg (by omega : ¬ m = 0)]
  refine ⟨hmain, ?_, ?_, ?_⟩
  · exact stride_length_mul m hm _ _ hsliceH
  · exact stride_length_mul m hm _ _ hsliceL
  · intro hm1
    subst hm1
    rw [stride_one, stride_one] at hmain
    refine ⟨hmain, ?_⟩
    rw [hsliceH]
    ring

/-- Witness for C8: strain arrays of length 4, `gps = 1`, `start = 0`,
`dt = 1`, source rate 2, target rate 2 (ratio 1). -/
theorem C8_extract_decimation_witness :
    get_strain_from_hdf_file [10, 11, 12, 13] [20, 21, 22, 23] 0 0 1 1 (1 * 2) 2 =
      .ok (stride 1 (pySlice [10, 11, 12, 13] ((1 - 0 - 1) * ((1 * 2 : Nat) : Int))
            ((1 - 0 + 1) * ((1 * 2 : Nat) : Int))),
           stride 1 (pySlice [20, 21, 22, 23] ((1 - 0 - 1) * ((1 * 2 : Nat) : Int))
            ((1 - 0 + 1) * ((1 * 2 : Nat) : Int)))) :=
  (C8_extract_decimation Nat [10, 11, 12, 13] [20, 21, 22, 23] 0 0 1 1 1 2
    (by decide) (by decide) (by decide) (by decide) (by decide) (by decide)
    (by decide)).1

/-- C9 as amended.  `is_valid` performs no bounds check: for `w > 0` and a
window `[i, i+2w)` not contained in `[0, len)`, the Python slice read
clips (or, for negative indices, selects from the array end), so the
selected slice has length at most `2w`, and length exactly `2w` iff both
bounds are negative with `i ≥ -len` (the slice then silently comes from
the END of the array); an empty slice makes the all-elements quality
test pass vacuously; and with at least one required injection category
the injection check raises a numpy shape-mismatch error exactly when the
slice length differs from both `2w` and 1 (for lengths `2w` or 1 it
instead returns an ordinary boolean computed on the wrong data). -/
theorem C9_no_bounds_check (xs ys : List Nat) (i : Int) (w : Nat)
    (mdq b : Nat) (bits : List Nat) (hw : 0 < w)
    (hoob : ¬(0 ≤ i ∧ i + 2 * (w : Int) ≤ (xs.length : Int))) :
    (pySlice xs i (i + 2 * (w : Int))).length ≤ 2 * w
    ∧ ((pySlice xs i (i + 2 * (w : Int))).length = 2 * w ↔
        -(xs.length : Int) ≤ i ∧ i + 2 * (w : Int) < 0)
    ∧ ((pySlice xs i (i + 2 * (w : Int))).length = 0 →
        dqCheckPasses (pySlice xs i (i + 2 * (w : Int))) mdq = true)
    ∧ ((pySlice xs i (i + 2 * (w : Int))).length ≠ 2 * w →
        (pySlice xs i (i + 2 * (w : Int))).length ≠ 1 →
        injLoop (pySlice xs i (i + 2 * (w : Int))) ys (2 * w) (b :: bits) =
          .error .broadcastError) := by
  refine ⟨?_, ?_, ?_, ?_⟩
  · rw [pySlice_length]
    unfold pyNorm
    split <;> split <;> omega
  · rw [pySlice_length]
    unfold pyNorm
    split <;> split <;> omega
  · intro h
    rw [List.length_eq_zero] at h
    rw [h]
    rfl
  · intro h1 h2
    have hnp : npAllAndOnesShift (pySlice xs i (i + 2 * (w : Int))) (2 * w) b =
        .error .broadcastError := by
      unfold npAllAndOnesShift
      rw [if_neg (by omega), if_neg h2]
    simp only [injLoop, hnp]

/-- A concrete aligned pair of 4-second files with perfect masks, used for
the C9 counterexample. -/
def c9Files : List SegmentRecord :=
  [⟨0, .H1, 4, List.replicate 4 31, List.replicate 4 127⟩,
   ⟨0, .L1, 4, List.replicate 4 31, List.replicate 4 127⟩]

/-- The timeline built from `c9Files` (run span `[0, 4)`). -/
def c9NT : NoiseTimeline :=
  ⟨c9Files, ⟨List.replicate 4 31, List.replicate 4 31,
    List.replicate 4 127, List.replicate 4 127⟩⟩

/-- Counterexample to C9 as stated: at center 4 (= the run end) with
half-window 1 and one required injection category, the window `[3, 5)`
is not contained in `[0, 4)`, the slice is NOT empty (length 1), the
quality test runs on real data, and the injection check broadcasts the
length-1 slice against `ones(2)` and returns an ordinary boolean —
`is_valid` returns `ok true` instead of raising a length-mismatch
error. -/
theorem C9_counterexample :
    build_timeline c9Files = .ok c9NT
    ∧ ¬(0 ≤ c9NT.gps2idx 4 - (1 : Int)
        ∧ c9NT.gps2idx 4 + (1 : Int) ≤ (c9NT.timeline.h1_inj_mask.length : Int))
    ∧ (pySlice c9NT.timeline.h1_inj_mask
        (c9NT.gps2idx 4 - (1 : Int)) (c9NT.gps2idx 4 + (1 : Int))).length = 1
    ∧ c9NT.is_valid [] 4 1 [0, 1, 2, 3] [0] = .ok true := by decide

/-- Witness for C9 at `xs = [1, 2]`, `i = 5`, `w = 1`: the window `[5, 7)`
is entirely beyond the array, the slice is empty, and the injection
check raises the shape-mismatch error. -/
theorem C9_no_bounds_check_witness :
    injLoop (pySlice [1, 2] 5 (5 + 2 * (1 : Int))) [9] (2 * 1) [0] =
      .error .broadcastError :=
  (C9_no_bounds_check [1, 2] [9] 5 1 0 0 [] (by decide) (by decide)).2.2.2
    (by decide) (by decide)

/-- Indexing a zero-filled array always yields zero. -/
theorem getD_replicate_zero (n k : Nat) : (List.replicate n (0 : Nat)).getD k 0 = 0 := by
  rw [List.getD_eq_getElem?_getD, List.getElem?_replicate]
  split <;> rfl

/-- Reading back a spliced list `take a ++ mid ++ drop b`: length is
preserved, positions outside `[a, b)` are unchanged, and positions
`a + t` hold `mid`'s elements. -/
theorem spliceGetD (xs mid : List Nat) (a b : Nat) (hab : a ≤ b)
    (hbn : b ≤ xs.length) (hmid : mid.length = b - a) :
    (xs.take a ++ mid ++ xs.drop b).length = xs.length
    ∧ (∀ k : Nat, k < a ∨ b ≤ k →
        (xs.take a ++ mid ++ xs.drop b).getD k 0 = xs.getD k 0)
    ∧ (∀ t : Nat, t < mid.length →
        (xs.take a ++ mid ++ xs.drop b).getD (a + t) 0 = mid.getD t 0) := by
  have hta : (xs.take a).length = a := by
    rw [List.length_take]
    omega
  refine ⟨?_, ?_, ?_⟩
  · simp only [List.length_append, List.length_take, List.length_drop]
    omega
  · intro k hk
    rw [List.getD_eq_getElem?_getD, List.getD_eq_getElem?_getD]
    rcases hk with hk | hk
    · rw [List.getElem?_append_left
        (show k < (xs.take a ++ mid).length by rw [List.length_append, hta]; omega)]
      rw [List.getElem?_append_left (show k < (xs.take a).length by rw [hta]; omega)]
      rw [List.getElem?_take_of_lt hk]
    · have h1 : (xs.take a ++ mid).length = b := by
        rw [List.length_append, hta]
        omega
      rw [List.getElem?_append_right (show (xs.take a ++ mid).length ≤ k by omega)]
      rw [h1, List.getElem?_drop]
      have h2 : b + (k - b) = k := by omega
      rw [h2]
  · intro t ht
    rw [List.getD_eq_getElem?_getD, List.getD_eq_getElem?_getD]
    rw [List.getElem?_append_left
      (show a + t < (xs.take a ++ mid).length by rw [List.length_append, hta]; omega)]
    rw [List.getElem?_append_right (show (xs.take a).length ≤ a + t by rw [hta]; omega)]
    rw [hta]
    have h2 : a + t - a = t := by omega
    rw [h2]

/-- Specification of a successful numpy slice assignment: the result has the
same length; positions outside the clipped window `[a, b)` are unchanged;
and when the shape matched exactly, position `a + t` holds `v`'s `t`-th
element. -/
theorem pySetSlice_eq_some (xs v ys : List Nat) (i j : Int)
    (h : pySetSlice xs i j v = some ys) :
    ys.length = xs.length
    ∧ (∀ k : Nat, k < pyNorm xs.length i
        ∨ max (pyNorm xs.length j) (pyNorm xs.length i) ≤ k →
        ys.getD k 0 = xs.getD k 0)
    ∧ (max (pyNorm xs.length j) (pyNorm xs.length i) - pyNorm xs.length i = v.length →
        ∀ t : Nat, t < v.length →
          ys.getD (pyNorm xs.length i + t) 0 = v.getD t 0) := by
  unfold pySetSlice at h
  have hab : pyNorm xs.length i ≤ max (pyNorm xs.length j) (pyNorm xs.length i) :=
    le_max_right _ _
  have hbn : max (pyNorm xs.length j) (pyNorm xs.length i) ≤ xs.length :=
    max_le (pyNorm_le _ _) (pyNorm_le _ _)
  by_cases hc : max (pyNorm xs.length j) (pyNorm xs.length i) - pyNorm xs.length i
      = v.length
  · rw [if_pos hc] at h
    injection h with h2
    subst h2
    have hs := spliceGetD xs v _ _ hab hbn (by omega)
    exact ⟨hs.1, hs.2.1, fun _ t ht => hs.2.2 t ht⟩
  · rw [if_neg hc] at h
    by_cases hv : v.length = 1
    · rw [if_pos hv] at h
      injection h with h2
      subst h2
      have hs := spliceGetD xs
        (List.replicate (max (pyNorm xs.length j) (pyNorm xs.length i)
          - pyNorm xs.length i) (v.headD 0)) _ _ hab hbn (by simp)
      exact ⟨hs.1, hs.2.1, fun hcon => absurd hcon hc⟩
    · rw [if_neg hv] at h
      cases h

/-- Length preservation of a successful slice assignment. -/
theorem pySetSlice_length (xs v ys : List Nat) (i j : Int)
    (h : pySetSlice xs i j v = some ys) : ys.length = xs.length :=
  (pySetSlice_eq_some xs v ys i j h).1

/-- A mask copy whose window sticks out past the end of the array fails
with the numpy shape mismatch, unless the mask has length one. -/
theorem pySetSlice_exceed_none (xs v : List Nat) (i : Int) (d : Nat)
    (hi : 0 ≤ i) (hin : i ≤ (xs.length : Int))
    (hex : (xs.length : Int) < i + (d : Int))
    (hv : v.length = d) (hd : d ≠ 1) :
    pySetSlice xs i (i + (d : Int)) v = none := by
  unfold pySetSlice
  have ha : pyNorm xs.length i = i.toNat := pyNorm_eq_toNat _ _ hi hin
  have hb : pyNorm xs.length (i + (d : Int)) = xs.length := by
    unfold pyNorm
    split <;> omega
  rw [ha, hb]
  rw [if_neg (by omega), if_neg (by omega)]

/-- Reading back the replaced detector's injection array. -/
theorem detInj_setDet_same (tl : Timeline) (d : Detector) (inj dq : List Nat) :
    detInj (setDet tl d inj dq) d = inj := by
  cases d <;> rfl

/-- Reading back the replaced detector's quality array. -/
theorem detDQ_setDet_same (tl : Timeline) (d : Detector) (inj dq : List Nat) :
    detDQ (setDet tl d inj dq) d = dq := by
  cases d <;> rfl

/-- The other detector's injection array is untouched. -/
theorem detInj_setDet_other (tl : Timeline) (d d2 : Detector) (inj dq : List Nat)
    (h : d2 ≠ d) : detInj (setDet tl d inj dq) d2 = detInj tl d2 := by
  cases d <;> cases d2 <;> first | rfl | exact absurd rfl h

/-- The other detector's quality array is untouched. -/
theorem detDQ_setDet_other (tl : Timeline) (d d2 : Detector) (inj dq : List Nat)
    (h : d2 ≠ d) : detDQ (setDet tl d inj dq) d2 = detDQ tl d2 := by
  cases d <;> cases d2 <;> first | rfl | exact absurd rfl h

/-- Destructuring a successful `applyRecord`: both mask copies succeeded and
the result replaces exactly the record's detector's arrays. -/
theorem applyRecord_some_elim (runStart : Int) (tl tl2 : Timeline) (r : SegmentRecord)
    (h : applyRecord runStart tl r = some tl2) :
    ∃ inj dq,
      pySetSlice (detInj tl r.detector) (r.start_time - runStart)
        (r.start_time - runStart + (r.duration : Int)) r.inj_mask = some inj
      ∧ pySetSlice (detDQ tl r.detector) (r.start_time - runStart)
        (r.start_time - runStart + (r.duration : Int)) r.dq_mask = some dq
      ∧ tl2 = setDet tl r.detector inj dq := by
  unfold applyRecord at h
  rcases h1 : pySetSlice (detInj tl r.detector) (r.start_time - runStart)
      (r.start_time - runStart + (r.duration : Int)) r.inj_mask with _ | inj
  · simp only [h1] at h
    exact Option.noConfusion h
  · simp only [h1] at h
    rcases h2 : pySetSlice (detDQ tl r.detector) (r.start_time - runStart)
        (r.start_time - runStart + (r.duration : Int)) r.dq_mask with _ | dq
    · simp only [h2] at h
      exact Option.noConfusion h
    · simp only [h2] at h
      injection h with h3
      exact ⟨inj, dq, rfl, rfl, h3.symm⟩

/-- Effect of one successful, fully-fitting record copy: array lengths are
preserved, the record's window of its detector's arrays now holds its two
masks, and every slot outside the window (or of the other detector) is
unchanged. -/
theorem applyRecord_fit_spec (runStart : Int) (tl tl2 : Timeline) (r : SegmentRecord)
    (n : Nat)
    (hlen : ∀ dd, (detInj tl dd).length = n ∧ (detDQ tl dd).length = n)
    (h : applyRecord runStart tl r = some tl2)
    (hi : 0 ≤ r.start_time - runStart)
    (hfit : r.start_time - runStart + (r.duration : Int) ≤ (n : Int))
    (hvi : r.inj_mask.length = r.duration) (hvd : r.dq_mask.length = r.duration) :
    (∀ dd, (detInj tl2 dd).length = n ∧ (detDQ tl2 dd).length = n)
    ∧ (∀ t : Nat, t < r.duration →
        (detInj tl2 r.detector).getD ((r.start_time - runStart).toNat + t) 0
          = r.inj_mask.getD t 0
        ∧ (detDQ tl2 r.detector).getD ((r.start_time - runStart).toNat + t) 0
          = r.dq_mask.getD t 0)
    ∧ (∀ dd (k : Nat),
        (dd ≠ r.detector ∨ (k : Int) < r.start_time - runStart
          ∨ r.start_time - runStart + (r.duration : Int) ≤ (k : Int)) →
        (detInj tl2 dd).getD k 0 = (detInj tl dd).getD k 0
        ∧ (detDQ tl2 dd).getD k 0 = (detDQ tl dd).getD k 0) := by
  obtain ⟨inj, dq, h1, h2, h3⟩ := applyRecord_some_elim runStart tl tl2 r h
  subst h3
  have e1 : (detInj tl r.detector).length = n := (hlen r.detector).1
  have e2 : (detDQ tl r.detector).length = n := (hlen r.detector).2
  have spec1 := pySetSlice_eq_some _ _ _ _ _ h1
  have spec2 := pySetSlice_eq_some _ _ _ _ _ h2
  rw [e1] at spec1
  rw [e2] at spec2
  have ha : pyNorm n (r.start_time - runStart) = (r.start_time - runStart).toNat :=
    pyNorm_eq_toNat n _ hi (by omega)
  have hb : pyNorm n (r.start_time - runStart + (r.duration : Int))
      = (r.start_time - runStart).toNat + r.duration := by
    rw [pyNorm_eq_toNat n _ (by omega) hfit]
    omega
  rw [ha, hb] at spec1 spec2
  have hm : max ((r.start_time - runStart).toNat + r.duration)
      ((r.start_time - runStart).toNat) = (r.start_time - runStart).toNat + r.duration := by
    omega
  rw [hm] at spec1 spec2
  refine ⟨?_, ?_, ?_⟩
  · intro dd
    by_cases hdd : dd = r.detector
    · subst hdd
      rw [detInj_setDet_same, detDQ_setDet_same]
      exact ⟨spec1.1, spec2.1⟩
    · rw [detInj_setDet_other _ _ _ _ _ hdd, detDQ_setDet_other _ _ _ _ _ hdd]
      exact hlen dd
  · intro t ht
    rw [detInj_setDet_same, detDQ_setDet_same]
    constructor
    · exact spec1.2.2 (by omega) t (by omega)
    · exact spec2.2.2 (by omega) t (by omega)
  · intro dd k hcond
    by_cases hdd : dd = r.detector
    · subst hdd
      rw [detInj_setDet_same, detDQ_setDet_same]
      have hk : k < (r.start_time - runStart).toNat
          ∨ (r.start_time - runStart).toNat + r.duration ≤ k := by
        rcases hcond with hcond | hcond | hcond
        · exact absurd rfl hcond
        · left; omega
        · right; omega
      exact ⟨spec1.2.1 k hk, spec2.2.1 k hk⟩
    · rw [detInj_setDet_other _ _ _ _ _ hdd, detDQ_setDet_other _ _ _ _ _ hdd]
      exact ⟨rfl, rfl⟩

/-- A successful record copy preserves all four array lengths. -/
theorem applyRecord_preserves_length (runStart : Int) (tl tl2 : Timeline)
    (r : SegmentRecord) (n : Nat)
    (hlen : ∀ dd, (detInj tl dd).length = n ∧ (detDQ tl dd).length = n)
    (h : applyRecord runStart tl r = some tl2) :
    ∀ dd, (detInj tl2 dd).length = n ∧ (detDQ tl2 dd).length = n := by
  obtain ⟨inj, dq, h1, h2, h3⟩ := applyRecord_some_elim runStart tl tl2 r h
  subst h3
  intro dd
  by_cases hdd : dd = r.detector
  · subst hdd
    rw [detInj_setDet_same, detDQ_setDet_same]
    exact ⟨by rw [pySetSlice_length _ _ _ _ _ h1]; exact (hlen _).1,
           by rw [pySetSlice_length _ _ _ _ _ h2]; exact (hlen _).2⟩
  · rw [detInj_setDet_other _ _ _ _ _ hdd, detDQ_setDet_other _ _ _ _ _ hdd]
    exact hlen dd

/-- A record of duration other than 1 whose window sticks out past the end
of the timeline arrays makes its copy fail. -/
theorem applyRecord_exceed_none (runStart : Int) (tl : Timeline) (r : SegmentRecord)
    (n : Nat) (hlen : (detInj tl r.detector).length = n)
    (hi : 0 ≤ r.start_time - runStart)
    (hin : r.start_time - runStart ≤ (n : Int))
    (hex : (n : Int) < r.start_time - runStart + (r.duration : Int))
    (hv : r.inj_mask.length = r.duration) (hd : r.duration ≠ 1) :
    applyRecord runStart tl r = none := by
  unfold applyRecord
  rw [pySetSlice_exceed_none (detInj tl r.detector) r.inj_mask
    (r.start_time - runStart) r.duration hi (by rw [hlen]; exact hin)
    (by rw [hlen]; exact hex) hv hd]

/-- The record loop fails outright if the catalog contains a record of
duration other than 1 whose window sticks out past the arrays. -/
theorem buildLoop_none_of_exceed (runStart : Int) (n : Nat) (r : SegmentRecord)
    (hd : r.duration ≠ 1) (hv : r.inj_mask.length = r.duration)
    (hi : 0 ≤ r.start_time - runStart) (hin : r.start_time - runStart ≤ (n : Int))
    (hex : (n : Int) < r.start_time - runStart + (r.duration : Int)) :
    ∀ (files : List SegmentRecord) (tl : Timeline), r ∈ files →
      (∀ dd, (detInj tl dd).length = n ∧ (detDQ tl dd).length = n) →
      buildLoop runStart tl files = none := by
  intro files
  induction files with
  | nil =>
    intro tl hr
    cases hr
  | cons f rest ih =>
    intro tl hr hlen
    rcases happ : applyRecord runStart tl f with _ | tl2
    · simp only [buildLoop, happ]
    · rcases List.mem_cons.mp hr with heq | hmem
      · subst heq
        rw [applyRecord_exceed_none runStart tl r n (hlen r.detector).1
          hi hin hex hv hd] at happ
        exact Option.noConfusion happ
      · simp only [buildLoop, happ]
        exact ih tl2 hmem
          (applyRecord_preserves_length runStart tl tl2 f n hlen happ)

/-- C10 as amended.  For a sorted, well-formed catalog containing a record
of duration other than 1 whose end time `start_time + duration` sticks
out past `gps_end_time` (the end of the record with the greatest start
time), the destination slice of that record's mask copy is clipped to
the array length, the copy fails with numpy's length-mismatch error, and
timeline construction produces no timeline.  (A record of duration
exactly 1 extending past the run end — possible only when the
latest-starting record has duration 0 — is instead handled by numpy's
length-1 broadcast and does NOT abort construction, contrary to the
original claim; see the counterexample.) -/
theorem C10_exceeding_record (files : List SegmentRecord) (r : SegmentRecord)
    (hmin : ∀ s ∈ files, gps_start_time files ≤ s.start_time)
    (hmax : ∀ s ∈ files, s.start_time ≤ gps_end_time files)
    (hwf : ∀ s ∈ files, s.inj_mask.length = s.duration)
    (hr : r ∈ files) (hd : r.duration ≠ 1)
    (hex : gps_end_time files < r.start_time + (r.duration : Int)) :
    build_timeline files = .error .broadcastMismatch := by
  cases files with
  | nil => cases hr
  | cons f rest =>
    have h1 := hmin r hr
    have h2 := hmax r hr
    simp only [build_timeline]
    rw [if_neg (by omega)]
    rw [buildLoop_none_of_exceed (gps_start_time (f :: rest))
      (gps_end_time (f :: rest) - gps_start_time (f :: rest)).toNat r hd (hwf r hr)
      (by omega) (by omega) (by omega) (f :: rest) _ hr
      (by intro dd; cases dd <;>
        simp [detInj, detDQ, List.length_replicate])]

/-- Degenerate catalog refuting C10 as stated: a duration-1 record at start
100 paired with a duration-0 record at the same start (which, being last
in sorted order, makes `gps_end_time = 100`). -/
def c10Files : List SegmentRecord :=
  [⟨100, .H1, 1, [7], [7]⟩, ⟨100, .L1, 0, [], []⟩]

/-- Counterexample to C10 as stated: in `c10Files` the first record's end
time 101 exceeds `gps_end_time = 100`, the catalog is sorted by start
time, yet construction SUCCEEDS (the duration-1 mask is broadcast into
the clipped, empty destination slice instead of raising), producing the
empty-run timeline. -/
theorem C10_counterexample :
    build_timeline c10Files = .ok ⟨c10Files, ⟨[], [], [], []⟩⟩
    ∧ gps_end_time c10Files <
        (c10Files.headD ⟨0, .H1, 0, [], []⟩).start_time
          + ((c10Files.headD ⟨0, .H1, 0, [], []⟩).duration : Int)
    ∧ c10Files.all
        (fun s => decide (gps_start_time c10Files ≤ s.start_time)) = true := by
  refine ⟨by decide, by decide, by decide⟩

/-- A sorted catalog whose first record (H1, `[0, 5)`) extends past the run
end 4 set by the last record (L1, `[1, 4)`). -/
def c10bad : List SegmentRecord :=
  [⟨0, .H1, 5, List.replicate 5 31, List.replicate 5 127⟩,
   ⟨1, .L1, 3, List.replicate 3 31, List.replicate 3 127⟩]

/-- Witness for C10 at `c10bad`: construction fails with the broadcast
mismatch. -/
theorem C10_exceeding_record_witness :
    build_timeline c10bad = .error .broadcastMismatch :=
  C10_exceeding_record c10bad ⟨0, .H1, 5, List.replicate 5 31, List.replicate 5 127⟩
    (by decide) (by decide) (by decide) (by decide) (by decide) (by decide)

/-- Two records cannot clash in the timeline: they belong to different
detectors or their time intervals are disjoint. -/
def disjointRecs (a b : SegmentRecord) : Bool :=
  decide (a.detector ≠ b.detector)
  || decide (a.start_time + (a.duration : Int) ≤ b.start_time)
  || decide (b.start_time + (b.duration : Int) ≤ a.start_time)

/-- Pairwise same-detector non-overlap of a catalog. -/
def pairwiseDisjoint : List SegmentRecord → Bool
  | [] => true
  | r :: rs => rs.all (disjointRecs r) && pairwiseDisjoint rs

/-- Invariant of the `_build_timeline` record loop on a catalog of fitting,
well-formed, pairwise same-detector disjoint records: lengths are
preserved, every record's window of its detector's arrays holds its mask
values, and slots not covered by any same-detector record are unchanged. -/
theorem buildLoop_spec (runStart : Int) (n : Nat) :
    ∀ (files : List SegmentRecord) (tl tl' : Timeline),
    buildLoop runStart tl files = some tl' →
    (∀ dd, (detInj tl dd).length = n ∧ (detDQ tl dd).length = n) →
    (∀ s ∈ files, 0 ≤ s.start_time - runStart
      ∧ s.start_time - runStart + (s.duration : Int) ≤ (n : Int)
      ∧ s.inj_mask.length = s.duration ∧ s.dq_mask.length = s.duration) →
    pairwiseDisjoint files = true →
    (∀ dd, (detInj tl' dd).length = n ∧ (detDQ tl' dd).length = n)
    ∧ (∀ r ∈ files, ∀ t : Nat, t < r.duration →
        (detInj tl' r.detector).getD ((r.start_time - runStart).toNat + t) 0
          = r.inj_mask.getD t 0
        ∧ (detDQ tl' r.detector).getD ((r.start_time - runStart).toNat + t) 0
          = r.dq_mask.getD t 0)
    ∧ (∀ dd (k : Nat),
        (∀ s ∈ files, s.detector = dd →
          ¬(s.start_time - runStart ≤ (k : Int)
            ∧ (k : Int) < s.start_time - runStart + (s.duration : Int))) →
        (detInj tl' dd).getD k 0 = (detInj tl dd).getD k 0
        ∧ (detDQ tl' dd).getD k 0 = (detDQ tl dd).getD k 0) := by
  intro files
  induction files with
  | nil =>
    intro tl tl' h hlen hfiles hdisj
    simp only [buildLoop] at h
    injection h with h2
    subst h2
    refine ⟨hlen, ?_, fun dd k _ => ⟨rfl, rfl⟩⟩
    intro r hr
    cases hr
  | cons f rest ih =>
    intro tl tl' h hlen hfiles hdisj
    rcases happ : applyRecord runStart tl f with _ | tl2
    · simp only [buildLoop, happ] at h
      exact Option.noConfusion h
    · simp only [buildLoop, happ] at h
      have hf := hfiles f (List.mem_cons_self f rest)
      have hspec := applyRecord_fit_spec runStart tl tl2 f n hlen happ
        hf.1 hf.2.1 hf.2.2.1 hf.2.2.2
      simp only [pairwiseDisjoint, Bool.and_eq_true, List.all_eq_true] at hdisj
      obtain ⟨hdisj1, hdisj2⟩ := hdisj
      have hrest := ih tl2 tl' h hspec.1
        (fun s hs => hfiles s (List.mem_cons_of_mem f hs)) hdisj2
      refine ⟨hrest.1, ?_, ?_⟩
      · intro r hr t ht
        rcases List.mem_cons.mp hr with heq | hmem
        · subst heq
          have hpres := hrest.2.2 r.detector ((r.start_time - runStart).toNat + t) ?_
          · exact ⟨hpres.1.trans (hspec.2.1 t ht).1, hpres.2.trans (hspec.2.1 t ht).2⟩
          · intro s hs hsd
            have hds := hdisj1 s hs
            unfold disjointRecs at hds
            simp only [Bool.or_eq_true, decide_eq_true_eq] at hds
            have hfs := hfiles s (List.mem_cons_of_mem r hs)
            intro hcov
            rcases hds with (hds | hds) | hds
            · exact hds hsd.symm
            · omega
            · omega
        · exact hrest.2.1 r hmem t ht
      · intro dd k hnone
        have h2 := hrest.2.2 dd k
          (fun s hs hsd => hnone s (List.mem_cons_of_mem f hs) hsd)
        have h3 := hspec.2.2 dd k ?_
        · exact ⟨h2.1.trans h3.1, h2.2.trans h3.2⟩
        · by_cases hdd : dd = f.detector
          · right
            have := hnone f (List.mem_cons_self f rest) hdd.symm
            omega
          · exact Or.inl hdd

/-- C2.  After timeline construction from a sorted catalog of fitting,
well-formed, non-overlapping same-detector records: for every second
covered by a record, the corresponding slot of that detector's injection
and quality timeline arrays equals the record's mask value at that
second; and every in-run second not covered by any record reads zero in
all four arrays. -/
theorem C2_timeline_invariant (files : List SegmentRecord) (nt : NoiseTimeline)
    (hmin : ∀ s ∈ files, gps_start_time files ≤ s.start_time)
    (hfit : ∀ s ∈ files, s.start_time + (s.duration : Int) ≤ gps_end_time files)
    (hwf : ∀ s ∈ files, s.inj_mask.length = s.duration ∧ s.dq_mask.length = s.duration)
    (hdisj : pairwiseDisjoint files = true)
    (hbuild : build_timeline files = .ok nt) :
    (∀ r ∈ files, ∀ t : Nat, t < r.duration →
        (detInj nt.timeline r.detector).getD
          ((r.start_time - gps_start_time files).toNat + t) 0 = r.inj_mask.getD t 0
        ∧ (detDQ nt.timeline r.detector).getD
          ((r.start_time - gps_start_time files).toNat + t) 0 = r.dq_mask.getD t 0)
    ∧ (∀ k : Nat, (k : Int) < gps_end_time files - gps_start_time files →
        (∀ s ∈ files, ¬(s.start_time ≤ gps_start_time files + (k : Int)
          ∧ gps_start_time files + (k : Int) < s.start_time + (s.duration : Int))) →
        ∀ dd, (detInj nt.timeline dd).getD k 0 = 0
          ∧ (detDQ nt.timeline dd).getD k 0 = 0) := by
  cases files with
  | nil =>
    simp only [build_timeline] at hbuild
    exact Except.noConfusion hbuild
  | cons f rest =>
    simp only [build_timeline] at hbuild
    by_cases hneg : gps_end_time (f :: rest) < gps_start_time (f :: rest)
    · rw [if_pos hneg] at hbuild
      exact Except.noConfusion hbuild
    · rw [if_neg hneg] at hbuild
      rcases hloop : buildLoop (gps_start_time (f :: rest))
          ⟨List.replicate (gps_end_time (f :: rest) - gps_start_time (f :: rest)).toNat 0,
           List.replicate (gps_end_time (f :: rest) - gps_start_time (f :: rest)).toNat 0,
           List.replicate (gps_end_time (f :: rest) - gps_start_time (f :: rest)).toNat 0,
           List.replicate (gps_end_time (f :: rest) - gps_start_time (f :: rest)).toNat 0⟩
          (f :: rest) with _ | tl
      · rw [hloop] at hbuild
        exact Except.noConfusion hbuild
      · rw [hloop] at hbuild
        injection hbuild with h2
        subst h2
        have hspec := buildLoop_spec (gps_start_time (f :: rest))
          (gps_end_time (f :: rest) - gps_start_time (f :: rest)).toNat (f :: rest)
          _ tl hloop
          (by intro dd; cases dd <;> simp [detInj, detDQ, List.length_replicate])
          (by
            intro s hs
            have h1 := hmin s hs
            have h2 := hfit s hs
            exact ⟨by omega, by omega, (hwf s hs).1, (hwf s hs).2⟩)
          hdisj
        constructor
        · intro r hr t ht
          exact hspec.2.1 r hr t ht
        · intro k hk hnone dd
          have h3 := hspec.2.2 dd k (by
            intro s hs _ hcov
            have h1 := hmin s hs
            exact hnone s hs (by omega))
          constructor
          · rw [h3.1]
            cases dd <;> exact getD_replicate_zero _ _
          · rw [h3.2]
            cases dd <;> exact getD_replicate_zero _ _

/-- Witness for C2 at the catalog `ctFiles` and its built timeline `ctNT`:
second 3 of the first H1 record reads back its injection mask value. -/
theorem C2_timeline_invariant_witness :
    (detInj ctNT.timeline Detector.H1).getD
      (((0 : Int) - gps_start_time ctFiles).toNat + 3) 0
      = (List.replicate 8 31).getD 3 0 :=
  ((C2_timeline_invariant ctFiles ctNT (by decide) (by decide) (by decide)
    (by decide) (by decide)).1
    ⟨0, .H1, 8, List.replicate 8 31, List.replicate 8 127⟩ (by decide) 3 (by decide)).1
